import Mathlib

/-!
# Verification of the paintit drawing core (`src/App.tsx`)

Shallow embedding of the stroke-capture and history state of the `App`
component.  The React component keeps its state in `useState` hooks
(`tool`, `lines`, `history`, `historyStep`, `color`, `penSize`,
`eraserSize`) plus a mutable ref `isDrawing`; all event handlers update
this state synchronously, so we model the component as a record
`AppState` and each handler as a pure function `AppState → AppState`.

Pointer coordinates are opaque to the core (they are only stored, never
computed with), so we model them as `Int × Int`; colors are strings and
sizes natural numbers, again only stored.
-/

/-- The two drawing tools (`type Tool = 'pen' | 'eraser'`). -/
inductive Tool where
  | pen
  | eraser
deriving DecidableEq, Repr

/-- `interface DrawingLine { color; points; size; tool }`.  `points` is the
flat coordinate list `[x0, y0, x1, y1, ...]` exactly as in the source. -/
structure DrawingLine where
  color : String
  points : List Int
  size : Nat
  tool : Tool
deriving DecidableEq, Repr

/-- The component state of `App`: the `useState` hooks that the claims are
about, together with the `isDrawing` mutable ref.  UI-only state
(`showToolbox`, `mobileToolboxOpen`, the stage ref) carries no core
behaviour and is omitted. -/
structure AppState where
  tool : Tool
  lines : List DrawingLine
  history : List (List DrawingLine)
  historyStep : Nat
  color : String
  penSize : Nat
  eraserSize : Nat
  isDrawing : Bool
deriving DecidableEq, Repr

/-- The initial hook values: `tool = 'pen'`, `lines = []`,
`history = [[]]`, `historyStep = 0`, `color = PREDEFINED_COLORS[0]`,
`penSize = 6`, `eraserSize = 12`, `isDrawing.current = false`. -/
def initState : AppState :=
  { tool := Tool.pen
    lines := []
    history := [[]]
    historyStep := 0
    color := "#df4b26"
    penSize := 6
    eraserSize := 12
    isDrawing := false }

/-- `const currentSize = tool === 'pen' ? penSize : eraserSize`. -/
def currentSize (s : AppState) : Nat :=
  match s.tool with
  | Tool.pen => s.penSize
  | Tool.eraser => s.eraserSize

/-- `const setCurrentSize = tool === 'pen' ? setPenSize : setEraserSize`:
the single size setter exposed by the toolbar dispatches on the active
tool. -/
def setCurrentSize (v : Nat) (s : AppState) : AppState :=
  match s.tool with
  | Tool.pen => { s with penSize := v }
  | Tool.eraser => { s with eraserSize := v }

/-- `handleToolClick`: `setTool(selectedTool)`. -/
def handleToolClick (t : Tool) (s : AppState) : AppState :=
  { s with tool := t }

/-- `handleMouseDown`: sets `isDrawing.current = true`, builds
`newLine = { tool, points: [pos.x, pos.y], color, size: currentSize }`
and appends it (`setLines((prev) => [...prev, newLine])`). -/
def handleMouseDown (p : Int × Int) (s : AppState) : AppState :=
  { s with
      isDrawing := true
      lines := s.lines ++
        [{ tool := s.tool, points := [p.1, p.2], color := s.color,
           size := currentSize s }] }

/-- `handleMouseMove`: returns early when `!isDrawing.current`; otherwise
replaces the last line (`prevLines[prevLines.length - 1]`) by a copy with
`points.concat([point.x, point.y])`, keeping `prevLines.slice(0, -1)`;
an empty `prevLines` is returned unchanged. -/
def handleMouseMove (p : Int × Int) (s : AppState) : AppState :=
  if s.isDrawing = false then s
  else
    { s with
        lines :=
          match s.lines.getLast? with
          | none => s.lines
          | some lastLine =>
              s.lines.dropLast ++
                [{ lastLine with points := lastLine.points ++ [p.1, p.2] }] }

/-- `handleMouseUp`: sets `isDrawing.current = false`, then
`setHistory((prev) => [...prev.slice(0, historyStep + 1), [...lines]])`
and `setHistoryStep((prev) => prev + 1)`.  Note there is no `isDrawing`
guard: the commit happens on every end event. -/
def handleMouseUp (s : AppState) : AppState :=
  { s with
      isDrawing := false
      history := s.history.take (s.historyStep + 1) ++ [s.lines]
      historyStep := s.historyStep + 1 }

/-- `handleUndo`: `if (historyStep > 0)` decrement the step and
`setLines(history[historyStep - 1] || [])`; the index uses the
pre-decrement `historyStep` captured by the closure, and `|| []` turns an
out-of-bounds (`undefined`) read into `[]`. -/
def handleUndo (s : AppState) : AppState :=
  if s.historyStep > 0 then
    { s with
        historyStep := s.historyStep - 1
        lines := (s.history.get? (s.historyStep - 1)).getD [] }
  else s

/-- `handleRedo`: `if (historyStep < history.length - 1)` increment the
step and `setLines(history[historyStep + 1])`; the guard keeps the index
in bounds (we use `.getD []` to stay total, and prove the read is `some`
under the guard). -/
def handleRedo (s : AppState) : AppState :=
  if s.historyStep < s.history.length - 1 then
    { s with
        historyStep := s.historyStep + 1
        lines := (s.history.get? (s.historyStep + 1)).getD [] }
  else s

/-- `handleClearCanvas`: `setLines([])`, then the same
truncate-and-append on `history` with `[]` as the new entry, and
`setHistoryStep((prev) => prev + 1)`.  `isDrawing` is not touched. -/
def handleClearCanvas (s : AppState) : AppState :=
  { s with
      lines := []
      history := s.history.take (s.historyStep + 1) ++ [[]]
      historyStep := s.historyStep + 1 }

/-- Undo button enablement: `disabled={historyStep <= 0}`, i.e. enabled
iff `historyStep > 0`. -/
def canUndo (s : AppState) : Bool :=
  s.historyStep > 0

/-- Redo button enablement: `disabled={historyStep >= history.length - 1}`,
i.e. enabled iff `historyStep < history.length - 1`. -/
def canRedo (s : AppState) : Bool :=
  s.historyStep < s.history.length - 1

/-- Folding a list of move events over the state, in order. -/
def runMoves (ps : List (Int × Int)) (s : AppState) : AppState :=
  ps.foldl (fun st p => handleMouseMove p st) s

/-- Flat coordinate list of a sequence of positions, matching the
`points` representation. -/
def flattenPts : List (Int × Int) → List Int
  | [] => []
  | p :: ps => p.1 :: p.2 :: flattenPts ps

/-- History invariant from the spec: the cursor is a valid index into the
snapshot list (`0 ≤ cursor` is automatic for `Nat`). -/
def historyInv (s : AppState) : Prop :=
  s.historyStep < s.history.length

instance (s : AppState) : Decidable (historyInv s) :=
  inferInstanceAs (Decidable (_ < _))

/-! ## C1: commit truncates, appends, and prunes the redo branch -/

/-- C1: for every state whose cursor is a valid snapshot index, an end
event (the commit) truncates the snapshot list to indices `0..cursor`,
appends the current stroke list as a new entry, sets the cursor to the
index of the last snapshot, and leaves `canRedo` false. -/
theorem commit_truncates_appends_prunes_redo (s : AppState)
    (h : s.historyStep < s.history.length) :
    (handleMouseUp s).history = s.history.take (s.historyStep + 1) ++ [s.lines] ∧
    (handleMouseUp s).historyStep = (handleMouseUp s).history.length - 1 ∧
    canRedo (handleMouseUp s) = false := by
  refine ⟨rfl, ?_, ?_⟩
  · simp only [handleMouseUp, List.length_append, List.length_take, List.length_cons,
      List.length_nil]
    omega
  · simp only [canRedo, handleMouseUp, List.length_append, List.length_take,
      List.length_cons, List.length_nil, decide_eq_false_iff_not]
    omega

/-- Witness for C1 at the initial state. -/
theorem commit_truncates_appends_prunes_redo_witness :
    (handleMouseUp initState).history
        = initState.history.take (initState.historyStep + 1) ++ [initState.lines] ∧
    (handleMouseUp initState).historyStep = (handleMouseUp initState).history.length - 1 ∧
    canRedo (handleMouseUp initState) = false :=
  commit_truncates_appends_prunes_redo initState (by decide)

/-! ## C2: an end event while Idle still commits (claim corrected) -/

/-- C2 counterexample: in the initial state the controller is Idle
(`isDrawing = false`), yet an end event changes both the snapshot list
and the cursor — `handleMouseUp` has no `isDrawing` guard. -/
theorem end_while_idle_not_noop :
    initState.isDrawing = false ∧
    (handleMouseUp initState).history ≠ initState.history ∧
    (handleMouseUp initState).historyStep ≠ initState.historyStep := by
  decide

/-- C2 amended: an end event while Idle leaves the stroke list unchanged
but still performs the truncate-and-append commit of the current stroke
list and increments the cursor, exactly as when capturing. -/
theorem end_while_idle_commits_unchanged_lines (s : AppState)
    (_h : s.isDrawing = false) :
    (handleMouseUp s).lines = s.lines ∧
    (handleMouseUp s).history = s.history.take (s.historyStep + 1) ++ [s.lines] ∧
    (handleMouseUp s).historyStep = s.historyStep + 1 :=
  ⟨rfl, rfl, rfl⟩

/-- Witness for the amended C2 at the initial state. -/
theorem end_while_idle_commits_unchanged_lines_witness :
    (handleMouseUp initState).lines = initState.lines ∧
    (handleMouseUp initState).history
        = initState.history.take (initState.historyStep + 1) ++ [initState.lines] ∧
    (handleMouseUp initState).historyStep = initState.historyStep + 1 :=
  end_while_idle_commits_unchanged_lines initState (by decide)

/-! ## C3: undo decrements the cursor or is a no-op at 0 -/

/-- C3: with a valid cursor, undo at `cursor > 0` decrements the cursor
and displays the snapshot at the new cursor (the read is in bounds);
undo at `cursor = 0` is a no-op on the whole state.  `handleUndo` is a
total function, so undo never errors. -/
theorem undo_decrements_or_noop (s : AppState)
    (hinv : s.historyStep < s.history.length) :
    (0 < s.historyStep →
      (handleUndo s).historyStep = s.historyStep - 1 ∧
      s.history.get? (s.historyStep - 1) = some (handleUndo s).lines ∧
      (handleUndo s).history = s.history) ∧
    (s.historyStep = 0 → handleUndo s = s) := by
  constructor
  · intro hpos
    have hb : s.historyStep - 1 < s.history.length := by omega
    simp [handleUndo, hpos, List.getElem?_eq_getElem hb]
  · intro h0
    simp [handleUndo, h0]

/-- Witness for C3: undo after one commit, and undo at the initial state. -/
theorem undo_decrements_or_noop_witness :
    ((handleUndo (handleMouseUp initState)).historyStep
        = (handleMouseUp initState).historyStep - 1 ∧
      (handleMouseUp initState).history.get? ((handleMouseUp initState).historyStep - 1)
        = some (handleUndo (handleMouseUp initState)).lines ∧
      (handleUndo (handleMouseUp initState)).history = (handleMouseUp initState).history) ∧
    handleUndo initState = initState :=
  ⟨(undo_decrements_or_noop (handleMouseUp initState) (by decide)).1 (by decide),
   (undo_decrements_or_noop initState (by decide)).2 (by decide)⟩

/-! ## C4: redo increments the cursor or is a no-op at the end -/

/-- C4: redo with `cursor < snapshots.length - 1` increments the cursor
and displays the snapshot at the new cursor (the read is in bounds);
redo at `cursor = snapshots.length - 1` is a no-op on the whole state. -/
theorem redo_increments_or_noop (s : AppState) :
    (s.historyStep < s.history.length - 1 →
      (handleRedo s).historyStep = s.historyStep + 1 ∧
      s.history.get? (s.historyStep + 1) = some (handleRedo s).lines ∧
      (handleRedo s).history = s.history) ∧
    (s.historyStep = s.history.length - 1 → handleRedo s = s) := by
  constructor
  · intro hlt
    have hb : s.historyStep + 1 < s.history.length := by omega
    simp [handleRedo, hlt, List.getElem?_eq_getElem hb]
  · intro heq
    have hno : ¬ (s.historyStep < s.history.length - 1) := by omega
    simp [handleRedo, hno]

/-- Witness for C4: redo after undoing one commit, and redo at the top of
the history. -/
theorem redo_increments_or_noop_witness :
    ((handleRedo (handleUndo (handleMouseUp initState))).historyStep
        = (handleUndo (handleMouseUp initState)).historyStep + 1 ∧
      (handleUndo (handleMouseUp initState)).history.get?
          ((handleUndo (handleMouseUp initState)).historyStep + 1)
        = some (handleRedo (handleUndo (handleMouseUp initState))).lines ∧
      (handleRedo (handleUndo (handleMouseUp initState))).history
        = (handleUndo (handleMouseUp initState)).history) ∧
    handleRedo initState = initState :=
  ⟨(redo_increments_or_noop (handleUndo (handleMouseUp initState))).1 (by decide),
   (redo_increments_or_noop initState).2 (by decide)⟩

/-! ## C5: undo followed by redo restores the displayed state -/

/-- C5: from any state with a valid cursor greater than 0 whose displayed
stroke list is the snapshot at the cursor, undo followed immediately by
redo restores exactly the cursor and the stroke list (same strokes, same
order) that existed before the undo. -/
theorem undo_then_redo_restores (s : AppState)
    (hpos : 0 < s.historyStep) (hinv : s.historyStep < s.history.length)
    (hdisp : s.history.get? s.historyStep = some s.lines) :
    (handleRedo (handleUndo s)).historyStep = s.historyStep ∧
    (handleRedo (handleUndo s)).lines = s.lines := by
  have h1 : handleUndo s =
      { s with
          historyStep := s.historyStep - 1
          lines := (s.history.get? (s.historyStep - 1)).getD [] } := by
    simp [handleUndo, hpos]
  have hk : s.historyStep - 1 + 1 = s.historyStep := Nat.succ_pred_eq_of_pos hpos
  have hguard : s.historyStep - 1 < s.history.length - 1 := by omega
  rw [h1]
  simp only [handleRedo, hguard, if_pos, hk, hdisp, Option.getD_some]
  exact ⟨trivial, trivial⟩

/-- Witness for C5 after one commit from the initial state. -/
theorem undo_then_redo_restores_witness :
    (handleRedo (handleUndo (handleMouseUp initState))).historyStep
        = (handleMouseUp initState).historyStep ∧
    (handleRedo (handleUndo (handleMouseUp initState))).lines
        = (handleMouseUp initState).lines :=
  undo_then_redo_restores (handleMouseUp initState) (by decide) (by decide) (by decide)

/-! ## C6: clear is a commit of the empty canvas -/

/-- C6: clearing produces exactly the resulting stroke list, snapshot
list and cursor of committing the empty canvas state; clearing twice
appends two distinct history entries, both empty, and one undo after the
double clear lands on the empty snapshot recorded by the first clear
(cursor of the first clear, empty stroke list), not on the pre-clear
drawing. -/
theorem clear_is_commit_of_empty (s : AppState)
    (hinv : s.historyStep < s.history.length) :
    ((handleClearCanvas s).lines = (handleMouseUp { s with lines := [] }).lines ∧
      (handleClearCanvas s).history = (handleMouseUp { s with lines := [] }).history ∧
      (handleClearCanvas s).historyStep
        = (handleMouseUp { s with lines := [] }).historyStep) ∧
    (handleClearCanvas (handleClearCanvas s)).history
      = s.history.take (s.historyStep + 1) ++ [[], []] ∧
    (handleUndo (handleClearCanvas (handleClearCanvas s))).historyStep
      = (handleClearCanvas s).historyStep ∧
    (handleUndo (handleClearCanvas (handleClearCanvas s))).lines = [] := by
  have hlen : (s.history.take (s.historyStep + 1)).length = s.historyStep + 1 := by
    rw [List.length_take]
    omega
  have h2 : (handleClearCanvas (handleClearCanvas s)).history
      = s.history.take (s.historyStep + 1) ++ [[], []] := by
    simp only [handleClearCanvas]
    rw [List.take_of_length_le (by simp [hlen])]
    simp
  have hget : (handleClearCanvas (handleClearCanvas s)).history.get?
      (s.historyStep + 1) = some [] := by
    rw [h2, List.get?_eq_getElem?, List.getElem?_append_right (by omega)]
    simp [hlen]
  refine ⟨⟨rfl, rfl, rfl⟩, h2, ?_, ?_⟩
  · rfl
  · show ((handleClearCanvas (handleClearCanvas s)).history.get?
        (s.historyStep + 1 + 1 - 1)).getD [] = []
    rw [show s.historyStep + 1 + 1 - 1 = s.historyStep + 1 from rfl, hget]
    rfl

/-- Witness for C6 at the initial state. -/
theorem clear_is_commit_of_empty_witness :
    (((handleClearCanvas initState).lines
        = (handleMouseUp { initState with lines := [] }).lines ∧
      (handleClearCanvas initState).history
        = (handleMouseUp { initState with lines := [] }).history ∧
      (handleClearCanvas initState).historyStep
        = (handleMouseUp { initState with lines := [] }).historyStep) ∧
    (handleClearCanvas (handleClearCanvas initState)).history
      = initState.history.take (initState.historyStep + 1) ++ [[], []] ∧
    (handleUndo (handleClearCanvas (handleClearCanvas initState))).historyStep
      = (handleClearCanvas initState).historyStep ∧
    (handleUndo (handleClearCanvas (handleClearCanvas initState))).lines = []) :=
  clear_is_commit_of_empty initState (by decide)

/-! ## C7: begin / move* / end captures exactly the event positions -/

/-- While capturing (`isDrawing = true`) with the stroke under capture
last in the list, a sequence of move events appends exactly its flattened
positions to that stroke and changes nothing else. -/
theorem runMoves_capturing (init : List DrawingLine) (ps : List (Int × Int))
    (s : AppState) (l : DrawingLine)
    (hd : s.isDrawing = true) (hl : s.lines = init ++ [l]) :
    runMoves ps s =
      { s with lines := init ++ [{ l with points := l.points ++ flattenPts ps }] } := by
  induction ps generalizing s l with
  | nil =>
      simp only [runMoves, List.foldl_nil, flattenPts, List.append_nil, ← hl]
  | cons p ps ih =>
      have hmove : handleMouseMove p s =
          { s with lines := init ++ [{ l with points := l.points ++ [p.1, p.2] }] } := by
        rw [handleMouseMove, if_neg (by rw [hd]; simp), hl,
          List.getLast?_concat, List.dropLast_concat]
      have hstep : runMoves (p :: ps) s = runMoves ps (handleMouseMove p s) := rfl
      rw [hstep, hmove,
        ih { s with lines := init ++ [{ l with points := l.points ++ [p.1, p.2] }] }
          { l with points := l.points ++ [p.1, p.2] } hd rfl]
      simp [flattenPts]

/-- C7: for any begin at `p0` followed by moves at `ps` and one end
event, the resulting final stroke has point list `p0` followed by the
move positions in order, with nothing appended by the end event; and the
concrete scenario begin(10,10), move(20,20), move(30,10), end() from the
initial state yields exactly the history `[[], [stroke]]` (length 2,
initial empty snapshot plus one), cursor 1, and stroke points
`[10, 10, 20, 20, 30, 10]`. -/
theorem begin_moves_end_stroke_points (s : AppState) (p0 : Int × Int)
    (ps : List (Int × Int)) :
    (handleMouseUp (runMoves ps (handleMouseDown p0 s))).lines =
      s.lines ++
        [{ tool := s.tool, color := s.color, size := currentSize s,
           points := p0.1 :: p0.2 :: flattenPts ps }] ∧
    handleMouseUp (runMoves [((20 : Int), (20 : Int)), ((30 : Int), (10 : Int))]
        (handleMouseDown ((10 : Int), (10 : Int)) initState)) =
      { tool := Tool.pen
        lines := [{ color := "#df4b26", points := [10, 10, 20, 20, 30, 10],
                    size := 6, tool := Tool.pen }]
        history := [[], [{ color := "#df4b26", points := [10, 10, 20, 20, 30, 10],
                           size := 6, tool := Tool.pen }]]
        historyStep := 1
        color := "#df4b26"
        penSize := 6
        eraserSize := 12
        isDrawing := false } := by
  constructor
  · rw [runMoves_capturing s.lines ps (handleMouseDown p0 s)
      { tool := s.tool, points := [p0.1, p0.2], color := s.color, size := currentSize s }
      rfl rfl]
    simp [handleMouseUp]
  · decide

/-! ## C8: move while Idle is a total no-op; while Capturing it touches
only the last stroke -/

/-- C8: a move event while Idle (`isDrawing = false`) returns the state
unchanged — no stroke created or mutated, history and cursor untouched
(and `handleMouseMove` is a total function, so it cannot throw); while
Capturing with the stroke under capture last in the list, a move event
appends its position to that last stroke only, leaving every earlier
stroke and all other state components unchanged. -/
theorem move_idle_noop_capturing_appends_last (s : AppState) (p : Int × Int) :
    (s.isDrawing = false → handleMouseMove p s = s) ∧
    (∀ init l, s.isDrawing = true → s.lines = init ++ [l] →
      handleMouseMove p s =
        { s with lines := init ++ [{ l with points := l.points ++ [p.1, p.2] }] }) := by
  constructor
  · intro h
    rw [handleMouseMove, if_pos h]
  · intro init l hd hl
    rw [handleMouseMove, if_neg (by rw [hd]; simp), hl,
      List.getLast?_concat, List.dropLast_concat]

/-- Witness for C8: a stray move on the initial (Idle) state, and a move
right after a begin event. -/
theorem move_idle_noop_capturing_appends_last_witness :
    handleMouseMove ((5 : Int), (5 : Int)) initState = initState ∧
    handleMouseMove ((7 : Int), (8 : Int))
        (handleMouseDown ((1 : Int), (2 : Int)) initState) =
      { handleMouseDown ((1 : Int), (2 : Int)) initState with
          lines := [] ++
            [{ ({ tool := Tool.pen, points := [1, 2], color := "#df4b26",
                  size := 6 } : DrawingLine) with points := [1, 2] ++ [7, 8] }] } :=
  ⟨(move_idle_noop_capturing_appends_last initState (5, 5)).1 rfl,
   (move_idle_noop_capturing_appends_last
      (handleMouseDown ((1 : Int), (2 : Int)) initState) (7, 8)).2 []
      { tool := Tool.pen, points := [1, 2], color := "#df4b26", size := 6 } rfl rfl⟩

/-! ## C9: the cursor is always a valid snapshot index -/

/-- C9: `0 ≤ cursor < snapshots.length` holds in the initial state (one
empty snapshot, cursor 0) and is preserved by every public operation:
begin, move, end (commit), undo, redo and clear. -/
theorem history_invariant_all_ops :
    historyInv initState ∧
    ∀ s, historyInv s → ∀ p : Int × Int,
      historyInv (handleMouseDown p s) ∧
      historyInv (handleMouseMove p s) ∧
      historyInv (handleMouseUp s) ∧
      historyInv (handleUndo s) ∧
      historyInv (handleRedo s) ∧
      historyInv (handleClearCanvas s) := by
  refine ⟨by decide, ?_⟩
  intro s hs p
  have hs' : s.historyStep < s.history.length := hs
  refine ⟨hs, ?_, ?_, ?_, ?_, ?_⟩
  · unfold historyInv handleMouseMove
    split
    · exact hs
    · exact hs
  · unfold historyInv handleMouseUp
    simp only [List.length_append, List.length_take, List.length_cons, List.length_nil]
    omega
  · unfold historyInv handleUndo
    split
    · simp only []
      omega
    · exact hs
  · unfold historyInv handleRedo
    split
    · rename_i hlt
      simp only []
      omega
    · exact hs
  · unfold historyInv handleClearCanvas
    simp only [List.length_append, List.length_take, List.length_cons, List.length_nil]
    omega

/-- Witness for C9: the invariant after a commit and after an undo from
the initial state. -/
theorem history_invariant_all_ops_witness :
    historyInv (handleMouseUp initState) ∧ historyInv (handleUndo initState) :=
  ⟨(history_invariant_all_ops.2 initState (by decide) (0, 0)).2.2.1,
   (history_invariant_all_ops.2 initState (by decide) (0, 0)).2.2.2.1⟩

/-! ## C10: pen and eraser keep independent sizes -/

/-- C10: the single exposed size setter writes only the active tool's
size (`setPenSize` when the pen is active, `setEraserSize` when the
eraser is), leaving the other tool's size unchanged, and every new
stroke is created with the size stored for its own tool. -/
theorem sizes_independent_per_tool (s : AppState) (v : Nat) :
    (s.tool = Tool.pen →
      (setCurrentSize v s).penSize = v ∧
      (setCurrentSize v s).eraserSize = s.eraserSize) ∧
    (s.tool = Tool.eraser →
      (setCurrentSize v s).eraserSize = v ∧
      (setCurrentSize v s).penSize = s.penSize) ∧
    ∀ p : Int × Int,
      (handleMouseDown p s).lines.getLast? =
        some { tool := s.tool, points := [p.1, p.2], color := s.color,
               size := if s.tool = Tool.pen then s.penSize else s.eraserSize } := by
  refine ⟨?_, ?_, ?_⟩
  · intro h
    simp [setCurrentSize, h]
  · intro h
    simp [setCurrentSize, h]
  · intro p
    cases h : s.tool <;> simp [handleMouseDown, currentSize, h]

/-- Witness for C10: set the size with the pen active, then with the
eraser active. -/
theorem sizes_independent_per_tool_witness :
    ((setCurrentSize 20 initState).penSize = 20 ∧
      (setCurrentSize 20 initState).eraserSize = initState.eraserSize) ∧
    ((setCurrentSize 4 (handleToolClick Tool.eraser initState)).eraserSize = 4 ∧
      (setCurrentSize 4 (handleToolClick Tool.eraser initState)).penSize
        = (handleToolClick Tool.eraser initState).penSize) :=
  ⟨(sizes_independent_per_tool initState 20).1 rfl,
   (sizes_independent_per_tool (handleToolClick Tool.eraser initState) 4).2.1 rfl⟩
